import Mathlib

/-!
Shallow embedding of the Inventory/Player move-semantics project
(`src/Inventory.cpp`, `src/Player.cpp`).

Modelling conventions:
* C++ `float` weights are modelled as exact rationals (`Rat`); the claims are
  stated over exact arithmetic.
* The raw owning pointer `Item* equipped_` is modelled by an explicit heap:
  a list of optional `Item` cells indexed by natural-number addresses.
  `new` appends a live cell, `delete` overwrites the cell with `none`, and a
  null pointer is `Option.none` on the `equipped_` field.
* `std::vector<std::vector<Item>>` is a `List (List Item)`; per the move
  constructor/assignment's documented postcondition ("All containers are
  cleared to have size 0") the moved-from grid is the empty list.
* Methods that can throw `std::out_of_range` return `Except String _`; a
  mutating method additionally returns the resulting `Inventory`, the input
  state being returned unchanged on the error path.
-/

/-- Modelled from the spec: the item category enumeration is declared in a
header that is not under `src/`; its enumerators `NONE, WEAPON, ARMOR,
ACCESSORY` follow the spec's fixed closed set and their uses in
`src/Inventory.cpp` and `src/main.cpp`. -/
inductive Category where
  | NONE
  | WEAPON
  | ARMOR
  | ACCESSORY
deriving DecidableEq, Repr

/-- Modelled from the spec: the `Item` record is declared in a header that is
not under `src/`; its fields `name_`, `weight_`, `type_` follow the spec
(name, weight, category) and their uses in `src/Inventory.cpp` and
`src/main.cpp`. -/
structure Item where
  name_ : String
  weight_ : Rat
  type_ : Category
deriving DecidableEq, Repr

/-- The default-constructed `Item` used for unoccupied grid cells. -/
def Item.default : Item := ⟨"", 0, Category.NONE⟩

/-- A heap address (the value of a non-null `Item*`). -/
abbrev Addr := Nat

/-- The store backing `new`/`delete` for equipped items: a cell is `some it`
while allocated and live, `none` once deleted (or never allocated). -/
abbrev Heap := List (Option Item)

/-- Dereference an address: `some it` exactly when the cell is live. -/
def Heap.read (h : Heap) (a : Addr) : Option Item :=
  (h[a]?).getD none

/-- `new Item(it)`: returns the extended heap and the fresh address. -/
def Heap.alloc (h : Heap) (it : Item) : Heap × Addr :=
  (h ++ [some it], h.length)

/-- `delete a`: the cell at `a` becomes dead. -/
def Heap.free (h : Heap) (a : Addr) : Heap :=
  h.set a none

/-- `*a = it`: in-place mutation of the pointee. -/
def Heap.write (h : Heap) (a : Addr) (it : Item) : Heap :=
  h.set a (some it)

/-- The `Inventory` class state: grid, equipped pointer, cached aggregates. -/
structure Inventory where
  inventory_grid_ : List (List Item)
  equipped_ : Option Addr
  weight_ : Rat
  item_count_ : Nat
deriving DecidableEq, Repr

/-- One iteration of the constructor's inner loop: fold a row into the
running `(weight_, item_count_)` accumulator, skipping `NONE` items. -/
def scanRow (acc : Rat × Nat) (row : List Item) : Rat × Nat :=
  row.foldl
    (fun wc it =>
      if it.type_ ≠ Category.NONE then (wc.1 + it.weight_, wc.2 + 1) else wc)
    acc

/-- The constructor's double loop over the grid, starting from `(0, 0)`. -/
def scanGrid (g : List (List Item)) : Rat × Nat :=
  g.foldl scanRow (0, 0)

/-- `Inventory::Inventory(items, equipped)`: stores the grid and equipped
pointer and computes `weight_`/`item_count_` by scanning the grid. -/
def Inventory.construct (items : List (List Item)) (equipped : Option Addr) :
    Inventory :=
  { inventory_grid_ := items
    equipped_ := equipped
    weight_ := (scanGrid items).1
    item_count_ := (scanGrid items).2 }

/-- `Inventory::getEquipped()`. -/
def Inventory.getEquipped (inv : Inventory) : Option Addr :=
  inv.equipped_

/-- `Inventory::getItems()`. -/
def Inventory.getItems (inv : Inventory) : List (List Item) :=
  inv.inventory_grid_

/-- `Inventory::getWeight()`. -/
def Inventory.getWeight (inv : Inventory) : Rat :=
  inv.weight_

/-- `Inventory::getCount()`. -/
def Inventory.getCount (inv : Inventory) : Nat :=
  inv.item_count_

/-- `Inventory::equip(itemToEquip)`: rebinds `equipped_` only. The heap is
threaded through to record that the method performs no allocation or
deallocation. -/
def Inventory.equip (h : Heap) (inv : Inventory) (itemToEquip : Option Addr) :
    Heap × Inventory :=
  (h, { inv with equipped_ := itemToEquip })

/-- `Inventory::discardEquipped()`: if `equipped_` is non-null, `delete` it
and set it to null; otherwise do nothing. -/
def Inventory.discardEquipped (h : Heap) (inv : Inventory) : Heap × Inventory :=
  match inv.equipped_ with
  | none => (h, inv)
  | some a => (h.free a, { inv with equipped_ := none })

/-- `inventory_grid_[row][col]` once bounds are known to hold. -/
def getCell (g : List (List Item)) (row col : Nat) : Item :=
  ((g[row]?.getD [])[col]?).getD Item.default

/-- `inventory_grid_[row][col] = pickup` once bounds are known to hold. -/
def setCell (g : List (List Item)) (row col : Nat) (pickup : Item) :
    List (List Item) :=
  g.set row ((g[row]?.getD []).set col pickup)

/-- The bounds test shared by `at` and `store`:
`row >= inventory_grid_.size() || col >= inventory_grid_[row].size()`. -/
def Inventory.oob (inv : Inventory) (row col : Nat) : Prop :=
  row ≥ inv.inventory_grid_.length ∨
    col ≥ (inv.inventory_grid_[row]?.getD []).length

instance (inv : Inventory) (row col : Nat) : Decidable (inv.oob row col) := by
  unfold Inventory.oob
  infer_instance

/-- `Inventory::at(row, col)`: throws `std::out_of_range` when out of
bounds, otherwise returns a copy of the cell. (The method is `const`: it is
a pure function of the inventory.) -/
def Inventory.at' (inv : Inventory) (row col : Nat) : Except String Item :=
  if inv.oob row col then
    .error "Invalid inventory index."
  else
    .ok (getCell inv.inventory_grid_ row col)

/-- `Inventory::store(row, col, pickup)`: throws `std::out_of_range` when out
of bounds (leaving the state unchanged), returns `false` without mutation on
an occupied cell, and otherwise writes the cell, adds `pickup.weight_` to
`weight_`, increments `item_count_`, and returns `true`. -/
def Inventory.store (inv : Inventory) (row col : Nat) (pickup : Item) :
    Except String Bool × Inventory :=
  if inv.oob row col then
    (.error "Invalid inventory index.", inv)
  else if (getCell inv.inventory_grid_ row col).type_ ≠ Category.NONE then
    (.ok false, inv)
  else
    (.ok true,
      { inv with
        inventory_grid_ := setCell inv.inventory_grid_ row col pickup
        weight_ := inv.weight_ + pickup.weight_
        item_count_ := inv.item_count_ + 1 })

/-- `Inventory::Inventory(const Inventory&)`: copies grid and aggregates and
deep-copies the equipped item through a fresh allocation when non-null. -/
def Inventory.copy (h : Heap) (rhs : Inventory) : Heap × Inventory :=
  match rhs.equipped_ with
  | none =>
    (h,
      { inventory_grid_ := rhs.inventory_grid_
        equipped_ := none
        weight_ := rhs.weight_
        item_count_ := rhs.item_count_ })
  | some a =>
    let al := h.alloc ((h.read a).getD Item.default)
    (al.1,
      { inventory_grid_ := rhs.inventory_grid_
        equipped_ := some al.2
        weight_ := rhs.weight_
        item_count_ := rhs.item_count_ })

/-- `Inventory::Inventory(Inventory&&)`: the destination takes the source's
grid, equipped pointer, and aggregates; the source is left with an empty
grid, null equipped pointer, and zeroed aggregates. Returns
`(destination, new state of the source)`. -/
def Inventory.moveCtor (rhs : Inventory) : Inventory × Inventory :=
  ({ inventory_grid_ := rhs.inventory_grid_
     equipped_ := rhs.equipped_
     weight_ := rhs.weight_
     item_count_ := rhs.item_count_ },
   { inventory_grid_ := []
     equipped_ := none
     weight_ := 0
     item_count_ := 0 })

/-- `Inventory::operator=(const Inventory&)` in the non-self-assignment case:
`delete equipped_` (a no-op on null), then copy grid and aggregates and
deep-copy the right-hand side's equipped item. Returns
`(heap, new state of the left-hand side)`. -/
def Inventory.copyAssign (h : Heap) (lhs rhs : Inventory) : Heap × Inventory :=
  let h1 := match lhs.equipped_ with
    | none => h
    | some a => h.free a
  match rhs.equipped_ with
  | none =>
    (h1,
      { inventory_grid_ := rhs.inventory_grid_
        equipped_ := none
        weight_ := rhs.weight_
        item_count_ := rhs.item_count_ })
  | some a =>
    let al := h1.alloc ((h1.read a).getD Item.default)
    (al.1,
      { inventory_grid_ := rhs.inventory_grid_
        equipped_ := some al.2
        weight_ := rhs.weight_
        item_count_ := rhs.item_count_ })

/-- `Inventory::operator=(Inventory&&)` in the non-self-assignment case:
`delete equipped_`, take the source's grid, equipped pointer, and aggregates,
and leave the source empty. Returns
`(heap, new state of the left-hand side, new state of the source)`. -/
def Inventory.moveAssign (h : Heap) (lhs rhs : Inventory) :
    Heap × Inventory × Inventory :=
  let h1 := match lhs.equipped_ with
    | none => h
    | some a => h.free a
  (h1,
   { inventory_grid_ := rhs.inventory_grid_
     equipped_ := rhs.equipped_
     weight_ := rhs.weight_
     item_count_ := rhs.item_count_ },
   { inventory_grid_ := []
     equipped_ := none
     weight_ := 0
     item_count_ := 0 })

/-- The `Player` class state (`src/Player.cpp`): a name and an `Inventory`
owned by value. -/
structure Player where
  name_ : String
  inventory_ : Inventory
deriving DecidableEq, Repr

/-- `Player::Player(name, inventory)`: stores the name and a copy of the
supplied inventory (the copy deep-copies the equipped item). -/
def Player.construct (h : Heap) (name : String) (inventory : Inventory) :
    Heap × Player :=
  let c := Inventory.copy h inventory
  (c.1, { name_ := name, inventory_ := c.2 })

/-- `Player::getName()`. -/
def Player.getName (p : Player) : String :=
  p.name_

/-- `Player::Player(Player&&)`: moves the name and the inventory; the
moved-from `std::string` is left empty and the inventory is left in its
moved-from state. Returns `(destination, new state of the source)`. -/
def Player.moveCtor (rhs : Player) : Player × Player :=
  let m := rhs.inventory_.moveCtor
  ({ name_ := rhs.name_, inventory_ := m.1 },
   { name_ := "", inventory_ := m.2 })

/-- `Player::operator=(Player&&)` in the non-self-assignment case: move-assigns
the name and the inventory. Returns
`(heap, new state of the left-hand side, new state of the source)`. -/
def Player.moveAssign (h : Heap) (lhs rhs : Player) :
    Heap × Player × Player :=
  let m := Inventory.moveAssign h lhs.inventory_ rhs.inventory_
  (m.1,
   { name_ := rhs.name_, inventory_ := m.2.1 },
   { name_ := "", inventory_ := m.2.2 })

/-! ## Specification-side aggregates and the class invariant -/

/-- The weight a single cell contributes to the aggregate: `NONE` cells
contribute zero. -/
def weightContrib (it : Item) : Rat :=
  if it.type_ = Category.NONE then 0 else it.weight_

/-- The count a single cell contributes to the aggregate: `NONE` cells are
not counted. -/
def countContrib (it : Item) : Nat :=
  if it.type_ = Category.NONE then 0 else 1

/-- Sum of weights of the non-`NONE` items of one row. -/
def rowWeight (row : List Item) : Rat :=
  (row.map weightContrib).sum

/-- Number of non-`NONE` items of one row. -/
def rowCount (row : List Item) : Nat :=
  (row.map countContrib).sum

/-- Sum of weights of all non-`NONE` cells of a grid. -/
def gridWeight (g : List (List Item)) : Rat :=
  (g.map rowWeight).sum

/-- Number of non-`NONE` cells of a grid. -/
def gridCount (g : List (List Item)) : Nat :=
  (g.map rowCount).sum

/-- The documented class invariant: the cached aggregates agree with the
grid, the equipped item never being included. -/
def invariantHolds (inv : Inventory) : Prop :=
  inv.weight_ = gridWeight inv.inventory_grid_ ∧
    inv.item_count_ = gridCount inv.inventory_grid_

instance (inv : Inventory) : Decidable (invariantHolds inv) := by
  unfold invariantHolds
  infer_instance

/-! ## Bridge lemmas: the constructor's fold computes the aggregates -/

theorem scanRow_eq (row : List Item) :
    ∀ acc : Rat × Nat,
      scanRow acc row = (acc.1 + rowWeight row, acc.2 + rowCount row) := by
  induction row with
  | nil =>
    intro acc
    simp [scanRow, rowWeight, rowCount]
  | cons it row ih =>
    intro acc
    have hstep : scanRow acc (it :: row) =
        scanRow
          (if it.type_ ≠ Category.NONE then (acc.1 + it.weight_, acc.2 + 1)
           else acc) row := rfl
    by_cases hit : it.type_ = Category.NONE
    · rw [hstep]
      simp only [hit, ne_eq, not_true_eq_false, if_false, ih]
      simp [rowWeight, rowCount, weightContrib, countContrib, hit]
    · rw [hstep]
      simp only [ne_eq, hit, not_false_eq_true, if_true, ih]
      simp only [rowWeight, rowCount, weightContrib, countContrib,
        List.map_cons, List.sum_cons, if_neg hit, Prod.mk.injEq]
      constructor
      · ring
      · omega

theorem scanGrid_go (g : List (List Item)) :
    ∀ acc : Rat × Nat,
      g.foldl scanRow acc = (acc.1 + gridWeight g, acc.2 + gridCount g) := by
  induction g with
  | nil =>
    intro acc
    simp [gridWeight, gridCount]
  | cons row g ih =>
    intro acc
    simp only [List.foldl_cons, ih, scanRow_eq]
    simp only [gridWeight, gridCount, List.map_cons, List.sum_cons,
      Prod.mk.injEq]
    constructor
    · ring
    · omega

theorem scanGrid_eq (g : List (List Item)) :
    scanGrid g = (gridWeight g, gridCount g) := by
  unfold scanGrid
  rw [scanGrid_go]
  simp

/-- A freshly constructed `Inventory` satisfies the class invariant. -/
theorem construct_invariant (items : List (List Item)) (eq : Option Addr) :
    invariantHolds (Inventory.construct items eq) := by
  unfold invariantHolds Inventory.construct
  simp [scanGrid_eq]

/-! ## Updating one cell: effect on the aggregates -/

theorem sum_map_set {α M : Type*} [AddCommMonoid M] (f : α → M) :
    ∀ (l : List α) (i : Nat) (a b : α), l[i]? = some b →
      ((l.set i a).map f).sum + f b = (l.map f).sum + f a := by
  intro l
  induction l with
  | nil =>
    intro i a b hb
    simp at hb
  | cons x xs ih =>
    intro i a b hb
    cases i with
    | zero =>
      simp only [List.getElem?_cons_zero, Option.some.injEq] at hb
      subst hb
      simp only [List.set_cons_zero, List.map_cons, List.sum_cons]
      abel
    | succ i =>
      simp only [List.getElem?_cons_succ] at hb
      simp only [List.set_cons_succ, List.map_cons, List.sum_cons]
      rw [add_assoc, ih i a b hb, ← add_assoc]

theorem gridWeight_setCell (g : List (List Item)) (row col : Nat) (it : Item)
    (hrow : row < g.length) (hcol : col < (g[row]?.getD []).length) :
    gridWeight (setCell g row col it) + weightContrib (getCell g row col) =
      gridWeight g + weightContrib it := by
  obtain ⟨rowl, hrl⟩ : ∃ r, g[row]? = some r :=
    ⟨_, List.getElem?_eq_getElem hrow⟩
  rw [hrl] at hcol
  simp only [Option.getD_some] at hcol
  obtain ⟨old, hoc⟩ : ∃ o, rowl[col]? = some o :=
    ⟨_, List.getElem?_eq_getElem hcol⟩
  have hold : getCell g row col = old := by
    simp [getCell, hrl, hoc]
  have h1 : rowWeight (rowl.set col it) + weightContrib old =
      rowWeight rowl + weightContrib it :=
    sum_map_set weightContrib rowl col it old hoc
  have h2 : gridWeight (g.set row (rowl.set col it)) + rowWeight rowl =
      gridWeight g + rowWeight (rowl.set col it) :=
    sum_map_set rowWeight g row (rowl.set col it) rowl hrl
  have hset : setCell g row col it = g.set row (rowl.set col it) := by
    simp [setCell, hrl]
  rw [hset, hold]
  linarith

theorem gridCount_setCell (g : List (List Item)) (row col : Nat) (it : Item)
    (hrow : row < g.length) (hcol : col < (g[row]?.getD []).length) :
    gridCount (setCell g row col it) + countContrib (getCell g row col) =
      gridCount g + countContrib it := by
  obtain ⟨rowl, hrl⟩ : ∃ r, g[row]? = some r :=
    ⟨_, List.getElem?_eq_getElem hrow⟩
  rw [hrl] at hcol
  simp only [Option.getD_some] at hcol
  obtain ⟨old, hoc⟩ : ∃ o, rowl[col]? = some o :=
    ⟨_, List.getElem?_eq_getElem hcol⟩
  have hold : getCell g row col = old := by
    simp [getCell, hrl, hoc]
  have h1 : rowCount (rowl.set col it) + countContrib old =
      rowCount rowl + countContrib it :=
    sum_map_set countContrib rowl col it old hoc
  have h2 : gridCount (g.set row (rowl.set col it)) + rowCount rowl =
      gridCount g + rowCount (rowl.set col it) :=
    sum_map_set rowCount g row (rowl.set col it) rowl hrl
  have hset : setCell g row col it = g.set row (rowl.set col it) := by
    simp [setCell, hrl]
  rw [hset, hold]
  omega

/-- Cells other than the updated one are untouched by `setCell`. -/
theorem getCell_setCell_ne (g : List (List Item)) (row col : Nat) (it : Item)
    (r c : Nat) (hne : ¬(r = row ∧ c = col)) :
    getCell (setCell g row col it) r c = getCell g r c := by
  by_cases hr : r = row
  · subst hr
    have hc : c ≠ col := fun hc => hne ⟨rfl, hc⟩
    by_cases hrow : r < g.length
    · obtain ⟨rowl, hrl⟩ : ∃ w, g[r]? = some w :=
        ⟨_, List.getElem?_eq_getElem hrow⟩
      have hset : setCell g r col it = g.set r (rowl.set col it) := by
        simp [setCell, hrl]
      have hidx : (g.set r (rowl.set col it))[r]? = some (rowl.set col it) := by
        rw [List.getElem?_set_self', hrl]
        rfl
      simp [getCell, hset, hidx, hrl, List.getElem?_set_ne (Ne.symm hc)]
    · have hset : setCell g r col it = g := by
        unfold setCell
        exact List.set_eq_of_length_le (by omega)
      rw [hset]
  · simp [getCell, setCell, List.getElem?_set_ne (fun h => hr h.symm)]

/-! ## Store: branch characterisations and invariant preservation -/

theorem not_oob_iff (inv : Inventory) (row col : Nat) :
    ¬ inv.oob row col ↔
      row < inv.inventory_grid_.length ∧
        col < (inv.inventory_grid_[row]?.getD []).length := by
  unfold Inventory.oob
  omega

/-- The success branch of `store`, spelled out. -/
theorem store_empty_eq (inv : Inventory) (row col : Nat) (pickup : Item)
    (hrow : row < inv.inventory_grid_.length)
    (hcol : col < (inv.inventory_grid_[row]?.getD []).length)
    (hempty : (getCell inv.inventory_grid_ row col).type_ = Category.NONE) :
    inv.store row col pickup =
      (.ok true,
        { inv with
          inventory_grid_ := setCell inv.inventory_grid_ row col pickup
          weight_ := inv.weight_ + pickup.weight_
          item_count_ := inv.item_count_ + 1 }) := by
  unfold Inventory.store
  rw [if_neg ((not_oob_iff inv row col).2 ⟨hrow, hcol⟩), if_neg (by simp [hempty])]

/-- The occupied branch of `store`, spelled out. -/
theorem store_occupied_eq (inv : Inventory) (row col : Nat) (pickup : Item)
    (hrow : row < inv.inventory_grid_.length)
    (hcol : col < (inv.inventory_grid_[row]?.getD []).length)
    (hocc : (getCell inv.inventory_grid_ row col).type_ ≠ Category.NONE) :
    inv.store row col pickup = (.ok false, inv) := by
  unfold Inventory.store
  rw [if_neg ((not_oob_iff inv row col).2 ⟨hrow, hcol⟩), if_pos (by simp [hocc])]

/-- The out-of-bounds branch of `store`, spelled out. -/
theorem store_oob_eq (inv : Inventory) (row col : Nat) (pickup : Item)
    (hoob : inv.oob row col) :
    inv.store row col pickup = (.error "Invalid inventory index.", inv) := by
  unfold Inventory.store
  rw [if_pos hoob]

/-- `store` preserves the class invariant as long as the stored item's
category is not `NONE`. -/
theorem store_invariant (inv : Inventory) (row col : Nat) (pickup : Item)
    (hpk : pickup.type_ ≠ Category.NONE) (hinv : invariantHolds inv) :
    invariantHolds (inv.store row col pickup).2 := by
  by_cases hoob : inv.oob row col
  · rw [store_oob_eq inv row col pickup hoob]
    exact hinv
  · obtain ⟨hrow, hcol⟩ := (not_oob_iff inv row col).1 hoob
    by_cases hocc :
        (getCell inv.inventory_grid_ row col).type_ = Category.NONE
    · rw [store_empty_eq inv row col pickup hrow hcol hocc]
      obtain ⟨hw, hc⟩ := hinv
      have hW := gridWeight_setCell inv.inventory_grid_ row col pickup hrow hcol
      have hC := gridCount_setCell inv.inventory_grid_ row col pickup hrow hcol
      simp only [weightContrib, countContrib, if_pos hocc, if_neg hpk]
        at hW hC
      constructor
      · show inv.weight_ + pickup.weight_ = gridWeight (setCell _ _ _ _)
        rw [hw]
        linarith
      · show inv.item_count_ + 1 = gridCount (setCell _ _ _ _)
        rw [hc]
        omega
    · rw [store_occupied_eq inv row col pickup hrow hcol hocc]
      exact hinv

/-! ## Reachability by the public operations -/

/-- The `Inventory` values obtainable through the public operations named by
the invariant: construction, `store`, copying (constructor and assignment),
and moving (constructor and assignment, both end states). -/
inductive Reachable : Inventory → Prop where
  | construct (items : List (List Item)) (equipped : Option Addr) :
      Reachable (Inventory.construct items equipped)
  | store (inv : Inventory) (row col : Nat) (pickup : Item) :
      Reachable inv → Reachable (inv.store row col pickup).2
  | copyCtor (h : Heap) (inv : Inventory) :
      Reachable inv → Reachable (Inventory.copy h inv).2
  | copyAsg (h : Heap) (lhs inv : Inventory) :
      Reachable inv → Reachable (Inventory.copyAssign h lhs inv).2
  | moveCtorDest (inv : Inventory) :
      Reachable inv → Reachable inv.moveCtor.1
  | moveCtorSrc (inv : Inventory) :
      Reachable inv → Reachable inv.moveCtor.2
  | moveAsgDest (h : Heap) (lhs inv : Inventory) :
      Reachable inv → Reachable (Inventory.moveAssign h lhs inv).2.1
  | moveAsgSrc (h : Heap) (lhs inv : Inventory) :
      Reachable inv → Reachable (Inventory.moveAssign h lhs inv).2.2

/-- Reachability as above, but where every item handed to `store` has a
category other than `NONE` (the restriction forced by the missing category
check in `store`). -/
inductive ReachableChecked : Inventory → Prop where
  | construct (items : List (List Item)) (equipped : Option Addr) :
      ReachableChecked (Inventory.construct items equipped)
  | store (inv : Inventory) (row col : Nat) (pickup : Item) :
      pickup.type_ ≠ Category.NONE →
      ReachableChecked inv → ReachableChecked (inv.store row col pickup).2
  | copyCtor (h : Heap) (inv : Inventory) :
      ReachableChecked inv → ReachableChecked (Inventory.copy h inv).2
  | copyAsg (h : Heap) (lhs inv : Inventory) :
      ReachableChecked inv → ReachableChecked (Inventory.copyAssign h lhs inv).2
  | moveCtorDest (inv : Inventory) :
      ReachableChecked inv → ReachableChecked inv.moveCtor.1
  | moveCtorSrc (inv : Inventory) :
      ReachableChecked inv → ReachableChecked inv.moveCtor.2
  | moveAsgDest (h : Heap) (lhs inv : Inventory) :
      ReachableChecked inv → ReachableChecked (Inventory.moveAssign h lhs inv).2.1
  | moveAsgSrc (h : Heap) (lhs inv : Inventory) :
      ReachableChecked inv → ReachableChecked (Inventory.moveAssign h lhs inv).2.2

/-- The grid and both aggregates survive a copy (constructor form). -/
theorem copy_invariant (h : Heap) (inv : Inventory)
    (hinv : invariantHolds inv) :
    invariantHolds (Inventory.copy h inv).2 := by
  unfold Inventory.copy
  cases heq : inv.equipped_ <;>
    simpa [invariantHolds] using hinv

/-- The grid and both aggregates survive a copy (assignment form). -/
theorem copyAssign_invariant (h : Heap) (lhs inv : Inventory)
    (hinv : invariantHolds inv) :
    invariantHolds (Inventory.copyAssign h lhs inv).2 := by
  unfold Inventory.copyAssign
  cases heq : inv.equipped_ <;>
    simpa [invariantHolds] using hinv

/-- The empty moved-from state satisfies the invariant. -/
theorem movedFrom_invariant :
    invariantHolds
      { inventory_grid_ := []
        equipped_ := none
        weight_ := 0
        item_count_ := 0 } := by
  constructor <;> simp [gridWeight, gridCount]

/-- Every state reachable with category-checked stores satisfies the
invariant. -/
theorem reachableChecked_invariant (inv : Inventory)
    (h : ReachableChecked inv) : invariantHolds inv := by
  induction h with
  | construct items equipped =>
    exact construct_invariant items equipped
  | store inv row col pickup hpk _ ih =>
    exact store_invariant inv row col pickup hpk ih
  | copyCtor h inv _ ih =>
    exact copy_invariant h inv ih
  | copyAsg h lhs inv _ ih =>
    exact copyAssign_invariant h lhs inv ih
  | moveCtorDest inv _ ih =>
    simpa [Inventory.moveCtor, invariantHolds] using ih
  | moveCtorSrc inv _ _ =>
    simpa [Inventory.moveCtor] using movedFrom_invariant
  | moveAsgDest h lhs inv _ ih =>
    simpa [Inventory.moveAssign, invariantHolds] using ih
  | moveAsgSrc h lhs inv _ _ =>
    simpa [Inventory.moveAssign] using movedFrom_invariant

/-- A stored item whose category is `NONE`: `store` never checks for this. -/
def bogusItem : Item := ⟨"Bogus", 1, Category.NONE⟩

/-- The state reached by storing `bogusItem` into the empty in-bounds cell
of a freshly constructed 1×1 inventory. -/
def leakyInv : Inventory :=
  ((Inventory.construct [[Item.default]] none).store 0 0 bogusItem).2

theorem leakyInv_grid : leakyInv.inventory_grid_ = [[bogusItem]] := rfl

theorem leakyInv_count : leakyInv.item_count_ = 1 := rfl

/-- The claim "every Inventory reachable by the public operations satisfies
the aggregate invariant" fails on the code at a concrete input: storing the
`NONE`-category item `bogusItem` into the empty cell of a freshly
constructed 1×1 inventory yields a reachable state whose cached count is 1
while the grid has no non-`NONE` cell. -/
theorem C1_counterexample : Reachable leakyInv ∧ ¬ invariantHolds leakyInv := by
  refine ⟨Reachable.store _ 0 0 bogusItem (Reachable.construct [[Item.default]] none), ?_⟩
  intro hinv
  have hc := hinv.2
  rw [leakyInv_count, leakyInv_grid] at hc
  have : gridCount [[bogusItem]] = 0 := rfl
  rw [this] at hc
  exact one_ne_zero hc

/-- C1 (amended): for every Inventory reachable by the public operations
(construction, store, copy, move) in which every item handed to `store` has
a category other than `NONE`, the cached weight equals the sum of the
weights of grid cells whose category is not `NONE` and the cached count
equals the number of such cells; the equipped item is never included in
either aggregate (it never enters `gridWeight`/`gridCount`). -/
theorem C1_invariant (inv : Inventory) (h : ReachableChecked inv) :
    inv.weight_ = gridWeight inv.inventory_grid_ ∧
      inv.item_count_ = gridCount inv.inventory_grid_ :=
  reachableChecked_invariant inv h

/-- Witness for C1: a freshly constructed 1×1 inventory holding one default
(`NONE`) item, with the hypothesis discharged by the construction rule. -/
theorem C1_witness :
    (Inventory.construct [[Item.default]] none).weight_ =
        gridWeight [[Item.default]] ∧
      (Inventory.construct [[Item.default]] none).item_count_ =
        gridCount [[Item.default]] :=
  C1_invariant (Inventory.construct [[Item.default]] none)
    (ReachableChecked.construct [[Item.default]] none)

/-! ## Concrete items mirroring the driver (`src/main.cpp`) -/

/-- "Excalibur", a weapon of weight 21/2 (the driver's 10.5). -/
def swordItem : Item := ⟨"Excalibur", 21/2, Category.WEAPON⟩

/-- "Shield", armor of weight 5. -/
def shieldItem : Item := ⟨"Shield", 5, Category.ARMOR⟩

/-- "Health Potion", an accessory of weight 1/2 (the driver's 0.5). -/
def potionItem : Item := ⟨"Health Potion", 1/2, Category.ACCESSORY⟩

/-- A 1×1 inventory holding the sword, no equipped item. -/
def swordInv : Inventory := Inventory.construct [[swordItem]] none

/-- Not out of bounds means both indices are strictly within their
respective (per-row) bounds. -/
theorem store_ok_of_not_oob (inv : Inventory) (row col : Nat) (pickup : Item)
    (hoob : ¬ inv.oob row col) :
    ∃ b, (inv.store row col pickup).1 = .ok b := by
  unfold Inventory.store
  rw [if_neg hoob]
  by_cases hocc : (getCell inv.inventory_grid_ row col).type_ ≠ Category.NONE
  · exact ⟨false, by rw [if_pos hocc]⟩
  · exact ⟨true, by rw [if_neg hocc]⟩

/-- C2: `at` and `store` raise the out-of-range failure exactly when `row`
is at least the number of rows or `col` is at least the length of the
indexed row (per-row bounds), and an out-of-range `store` leaves the
Inventory — grid, weight, count, and equipped item — unchanged (`at` is a
`const` member: it is modelled as a pure function and cannot change the
state). -/
theorem C2_at_store_oob (inv : Inventory) (row col : Nat) (pickup : Item) :
    (inv.at' row col = .error "Invalid inventory index." ↔
        (row ≥ inv.inventory_grid_.length ∨
          col ≥ (inv.inventory_grid_[row]?.getD []).length)) ∧
      ((inv.store row col pickup).1 = .error "Invalid inventory index." ↔
        (row ≥ inv.inventory_grid_.length ∨
          col ≥ (inv.inventory_grid_[row]?.getD []).length)) ∧
      ((row ≥ inv.inventory_grid_.length ∨
          col ≥ (inv.inventory_grid_[row]?.getD []).length) →
        (inv.store row col pickup).2 = inv) := by
  by_cases hoob : inv.oob row col
  · have h1 : inv.at' row col = .error "Invalid inventory index." := by
      unfold Inventory.at'
      rw [if_pos hoob]
    have h2 := store_oob_eq inv row col pickup hoob
    exact ⟨iff_of_true h1 hoob,
      iff_of_true (by rw [h2]) hoob,
      fun _ => by rw [h2]⟩
  · have h1 : inv.at' row col = .ok (getCell inv.inventory_grid_ row col) := by
      unfold Inventory.at'
      rw [if_neg hoob]
    obtain ⟨b, hb⟩ := store_ok_of_not_oob inv row col pickup hoob
    exact ⟨iff_of_false (by simp [h1]) hoob,
      iff_of_false (by simp [hb]) hoob,
      fun hx => absurd hx hoob⟩

/-- Witness for C2: on the 1×1 sword inventory, index (10, 10) is out of
range for both `at` and `store`, and the failed `store` leaves the
inventory unchanged. -/
theorem C2_witness :
    swordInv.at' 10 10 = .error "Invalid inventory index." ∧
      (swordInv.store 10 10 potionItem).1 =
        .error "Invalid inventory index." ∧
      (swordInv.store 10 10 potionItem).2 = swordInv := by
  have h := C2_at_store_oob swordInv 10 10 potionItem
  have hoob : 10 ≥ swordInv.inventory_grid_.length ∨
      10 ≥ (swordInv.inventory_grid_[10]?.getD []).length := by
    left
    decide
  exact ⟨h.1.mpr hoob, h.2.1.mpr hoob, h.2.2 hoob⟩

/-- Reading back the updated cell gives the stored item. -/
theorem getCell_setCell_self (g : List (List Item)) (row col : Nat) (it : Item)
    (hrow : row < g.length) (hcol : col < (g[row]?.getD []).length) :
    getCell (setCell g row col it) row col = it := by
  obtain ⟨rowl, hrl⟩ : ∃ r, g[row]? = some r :=
    ⟨_, List.getElem?_eq_getElem hrow⟩
  rw [hrl] at hcol
  simp only [Option.getD_some] at hcol
  have hset : setCell g row col it = g.set row (rowl.set col it) := by
    simp [setCell, hrl]
  have hidx : (g.set row (rowl.set col it))[row]? = some (rowl.set col it) := by
    rw [List.getElem?_set_self', hrl]
    rfl
  have hcell : (rowl.set col it)[col]? = some it := by
    rw [List.getElem?_set_self', List.getElem?_eq_getElem hcol]
    rfl
  simp [getCell, hset, hidx, hcell]

/-- A 1×1 inventory whose single cell is empty (default `NONE` item). -/
def emptyCellInv : Inventory := Inventory.construct [[Item.default]] none

/-- C3: storing into an empty in-bounds cell returns `true`, writes the
cell, adds the item's weight to the cached weight, increments the cached
count, and leaves every other cell (and the equipped pointer) unchanged. -/
theorem C3_store_into_empty_cell (inv : Inventory) (row col : Nat)
    (pickup : Item)
    (hrow : row < inv.inventory_grid_.length)
    (hcol : col < (inv.inventory_grid_[row]?.getD []).length)
    (hempty : (getCell inv.inventory_grid_ row col).type_ = Category.NONE) :
    inv.store row col pickup =
      (.ok true,
        { inventory_grid_ := setCell inv.inventory_grid_ row col pickup
          equipped_ := inv.equipped_
          weight_ := inv.weight_ + pickup.weight_
          item_count_ := inv.item_count_ + 1 }) ∧
      getCell (setCell inv.inventory_grid_ row col pickup) row col = pickup ∧
      ∀ r c, ¬(r = row ∧ c = col) →
        getCell (setCell inv.inventory_grid_ row col pickup) r c =
          getCell inv.inventory_grid_ r c := by
  refine ⟨store_empty_eq inv row col pickup hrow hcol hempty, ?_, ?_⟩
  · exact getCell_setCell_self inv.inventory_grid_ row col pickup hrow hcol
  · intro r c hne
    exact getCell_setCell_ne inv.inventory_grid_ row col pickup r c hne

/-- Witness for C3: storing the potion into the empty cell of a 1×1
inventory succeeds at (0, 0); hypotheses discharged by `decide`. -/
theorem C3_witness :
    emptyCellInv.store 0 0 potionItem =
      (.ok true,
        { inventory_grid_ := setCell emptyCellInv.inventory_grid_ 0 0 potionItem
          equipped_ := emptyCellInv.equipped_
          weight_ := emptyCellInv.weight_ + potionItem.weight_
          item_count_ := emptyCellInv.item_count_ + 1 }) ∧
      getCell (setCell emptyCellInv.inventory_grid_ 0 0 potionItem) 0 0 =
        potionItem ∧
      ∀ r c, ¬(r = 0 ∧ c = 0) →
        getCell (setCell emptyCellInv.inventory_grid_ 0 0 potionItem) r c =
          getCell emptyCellInv.inventory_grid_ r c :=
  C3_store_into_empty_cell emptyCellInv 0 0 potionItem (by decide) (by decide)
    (by decide)

/-- C4: storing into an occupied in-bounds cell returns `false` and leaves
the entire state — grid, weight, count, equipped — unchanged. -/
theorem C4_store_occupied (inv : Inventory) (row col : Nat) (pickup : Item)
    (hrow : row < inv.inventory_grid_.length)
    (hcol : col < (inv.inventory_grid_[row]?.getD []).length)
    (hocc : (getCell inv.inventory_grid_ row col).type_ ≠ Category.NONE) :
    inv.store row col pickup = (.ok false, inv) :=
  store_occupied_eq inv row col pickup hrow hcol hocc

/-- Witness for C4: storing the potion onto the occupied sword cell fails
without mutation; hypotheses discharged by `decide`. -/
theorem C4_witness : swordInv.store 0 0 potionItem = (.ok false, swordInv) :=
  C4_store_occupied swordInv 0 0 potionItem (by decide) (by decide) (by decide)

/-- The valid-but-empty state every moved-from `Inventory` is left in. -/
def movedFromInv : Inventory :=
  { inventory_grid_ := []
    equipped_ := none
    weight_ := 0
    item_count_ := 0 }

/-- C5: moving an Inventory (constructor or assignment form) gives the
destination exactly the source's prior grid, equipped pointer, weight, and
count; the source is left with weight 0, count 0, an empty grid, and no
equipped item, and remains a valid, safely usable Inventory: it satisfies
the class invariant and accepts further `store` calls, which fail the
bounds check against its cleared size without mutating it. -/
theorem C5_move_transfers (h : Heap) (lhs inv : Inventory) :
    inv.moveCtor.1 = inv ∧
      inv.moveCtor.2 = movedFromInv ∧
      (Inventory.moveAssign h lhs inv).2.1 = inv ∧
      (Inventory.moveAssign h lhs inv).2.2 = movedFromInv ∧
      invariantHolds movedFromInv ∧
      ∀ r c it, (movedFromInv.store r c it).1 =
          .error "Invalid inventory index." ∧
        (movedFromInv.store r c it).2 = movedFromInv := by
  refine ⟨rfl, rfl, rfl, rfl, movedFrom_invariant, fun r c it => ?_⟩
  have hoob : movedFromInv.oob r c := Or.inl (Nat.zero_le r)
  rw [store_oob_eq movedFromInv r c it hoob]
  exact ⟨rfl, rfl⟩

/-! ## Heap lemmas for ownership reasoning -/

theorem Heap.read_lt_length (h : Heap) (a : Addr) (it : Item)
    (hr : h.read a = some it) : a < h.length := by
  rcases Nat.lt_or_ge a h.length with hlt | hge
  · exact hlt
  · rw [Heap.read, List.getElem?_eq_none hge] at hr
    simp at hr

theorem Heap.read_alloc_fresh (h : Heap) (it : Item) :
    (h.alloc it).1.read (h.alloc it).2 = some it := by
  unfold Heap.alloc Heap.read
  rw [List.getElem?_concat_length]
  rfl

theorem Heap.read_alloc_old (h : Heap) (it : Item) (a : Addr)
    (ha : a < h.length) : (h.alloc it).1.read a = h.read a := by
  unfold Heap.alloc Heap.read
  rw [List.getElem?_append, if_pos ha]

theorem Heap.read_write_ne (h : Heap) (a b : Addr) (it : Item)
    (hne : a ≠ b) : (h.write a it).read b = h.read b := by
  unfold Heap.write Heap.read
  rw [List.getElem?_set_ne hne]

theorem Heap.read_free_ne (h : Heap) (a b : Addr) (hne : a ≠ b) :
    (h.free a).read b = h.read b := by
  unfold Heap.free Heap.read
  rw [List.getElem?_set_ne hne]

/-- The deep-copy allocation pattern `new Item(*p)`: the fresh cell is
distinct from the source cell, both read back the same value, and writes or
frees on either side leave the other side's value intact. -/
theorem alloc_copy_spec (hh : Heap) (a : Addr) (it : Item)
    (hr : hh.read a = some it) :
    hh.length ≠ a ∧
      (hh.alloc it).1.read hh.length = some it ∧
      (hh.alloc it).1.read a = some it ∧
      (∀ it2, ((hh.alloc it).1.write hh.length it2).read a = some it) ∧
      (∀ it2, ((hh.alloc it).1.write a it2).read hh.length = some it) ∧
      (∀ b, b ≠ a → ((hh.alloc it).1.free b).read a = some it) ∧
      ((hh.alloc it).1.free a).read hh.length = some it := by
  have ha := Heap.read_lt_length hh a it hr
  have hne : hh.length ≠ a := ne_of_gt ha
  refine ⟨hne, Heap.read_alloc_fresh hh it, ?_, ?_, ?_, ?_, ?_⟩
  · rw [Heap.read_alloc_old hh it a ha]
    exact hr
  · intro it2
    rw [Heap.read_write_ne _ _ _ _ hne, Heap.read_alloc_old hh it a ha]
    exact hr
  · intro it2
    rw [Heap.read_write_ne _ _ _ _ (Ne.symm hne)]
    exact Heap.read_alloc_fresh hh it
  · intro b hb
    rw [Heap.read_free_ne _ _ _ hb, Heap.read_alloc_old hh it a ha]
    exact hr
  · rw [Heap.read_free_ne _ _ _ (Ne.symm hne)]
    exact Heap.read_alloc_fresh hh it

/-- After a deep copy, the original's equipped cell `a` (holding `it`) and
the copy's equipped cell are equal in value but independently owned:
distinct addresses, both live with value `it`, and mutating (`write`) or
discarding (`discardEquipped`) either one leaves the other's value
unchanged. -/
def independentlyOwned (hh : Heap) (orig cp : Inventory) (a : Addr)
    (it : Item) : Prop :=
  ∃ a', cp.equipped_ = some a' ∧ a' ≠ a ∧
    hh.read a' = some it ∧ hh.read a = some it ∧
    (∀ it2, (hh.write a' it2).read a = some it) ∧
    (∀ it2, (hh.write a it2).read a' = some it) ∧
    (Inventory.discardEquipped hh cp).1.read a = some it ∧
    (Inventory.discardEquipped hh orig).1.read a' = some it

/-- C6: copying an Inventory whose equipped item is non-null — by copy
constructor or by copy assignment onto any `lhs` not aliasing that item —
produces equipped items equal in value but independently owned: mutating or
discarding one side's equipped item leaves the other side's unchanged. -/
theorem C6_copy_independent (h : Heap) (lhs inv : Inventory) (a : Addr)
    (it : Item) (he : inv.equipped_ = some a) (hr : h.read a = some it)
    (hnoalias : lhs.equipped_ ≠ some a) :
    independentlyOwned (Inventory.copy h inv).1 inv (Inventory.copy h inv).2
        a it ∧
      independentlyOwned (Inventory.copyAssign h lhs inv).1 inv
        (Inventory.copyAssign h lhs inv).2 a it := by
  have key : ∀ hh : Heap, hh.read a = some it →
      independentlyOwned (hh.alloc it).1 inv
        { inventory_grid_ := inv.inventory_grid_
          equipped_ := some hh.length
          weight_ := inv.weight_
          item_count_ := inv.item_count_ } a it := by
    intro hh hhr
    obtain ⟨hne, f1, f2, w1, w2, fr1, fr2⟩ := alloc_copy_spec hh a it hhr
    refine ⟨hh.length, rfl, hne, f1, f2, w1, w2, ?_, ?_⟩
    · have hd : Inventory.discardEquipped (hh.alloc it).1
          { inventory_grid_ := inv.inventory_grid_
            equipped_ := some hh.length
            weight_ := inv.weight_
            item_count_ := inv.item_count_ } =
          ((hh.alloc it).1.free hh.length,
            { inventory_grid_ := inv.inventory_grid_
              equipped_ := none
              weight_ := inv.weight_
              item_count_ := inv.item_count_ }) := by
        simp [Inventory.discardEquipped]
      rw [hd]
      exact fr1 hh.length hne
    · have hd : Inventory.discardEquipped (hh.alloc it).1 inv =
          ((hh.alloc it).1.free a, { inv with equipped_ := none }) := by
        simp [Inventory.discardEquipped, he]
      rw [hd]
      exact fr2
  constructor
  · have hc : Inventory.copy h inv =
        ((h.alloc it).1,
          { inventory_grid_ := inv.inventory_grid_
            equipped_ := some h.length
            weight_ := inv.weight_
            item_count_ := inv.item_count_ }) := by
      simp [Inventory.copy, he, hr, Heap.alloc]
    rw [hc]
    exact key h hr
  · cases hlq : lhs.equipped_ with
    | none =>
      have hc : Inventory.copyAssign h lhs inv =
          ((h.alloc it).1,
            { inventory_grid_ := inv.inventory_grid_
              equipped_ := some h.length
              weight_ := inv.weight_
              item_count_ := inv.item_count_ }) := by
        simp [Inventory.copyAssign, hlq, he, hr, Heap.alloc]
      rw [hc]
      exact key h hr
    | some b =>
      have hb : b ≠ a := by
        intro hba
        exact hnoalias (hba ▸ hlq)
      have hr1 : (h.free b).read a = some it := by
        rw [Heap.read_free_ne _ _ _ hb]
        exact hr
      have hc : Inventory.copyAssign h lhs inv =
          (((h.free b).alloc it).1,
            { inventory_grid_ := inv.inventory_grid_
              equipped_ := some (h.free b).length
              weight_ := inv.weight_
              item_count_ := inv.item_count_ }) := by
        simp [Inventory.copyAssign, hlq, he, hr1]
        rfl
      rw [hc]
      exact key (h.free b) hr1

/-- A 1×1 sword inventory whose equipped pointer is address 0, which in the
heap `[some shieldItem]` holds the shield. -/
def shieldedInv : Inventory := Inventory.construct [[swordItem]] (some 0)

/-- Witness for C6: copying the shielded inventory over the one-cell heap,
both by constructor and by assignment onto an empty-equipped `lhs`; the
hypotheses are discharged by `rfl`/`decide`. -/
theorem C6_witness :
    independentlyOwned (Inventory.copy [some shieldItem] shieldedInv).1
        shieldedInv (Inventory.copy [some shieldItem] shieldedInv).2 0
        shieldItem ∧
      independentlyOwned
        (Inventory.copyAssign [some shieldItem] movedFromInv shieldedInv).1
        shieldedInv
        (Inventory.copyAssign [some shieldItem] movedFromInv shieldedInv).2 0
        shieldItem :=
  C6_copy_independent [some shieldItem] movedFromInv shieldedInv 0 shieldItem
    rfl rfl (by decide)

/-- C7: `equip(newItem)` rebinds `equipped_` to the new pointer and leaves
the grid, cached weight, cached count — and the heap, hence in particular
the previously equipped item's allocation — untouched. -/
theorem C7_equip_rebinds (h : Heap) (inv : Inventory) (x : Option Addr) :
    Inventory.equip h inv x =
      (h,
        { inventory_grid_ := inv.inventory_grid_
          equipped_ := x
          weight_ := inv.weight_
          item_count_ := inv.item_count_ }) ∧
      ∀ a it, inv.equipped_ = some a → h.read a = some it →
        (Inventory.equip h inv x).1.read a = some it :=
  ⟨rfl, fun _ _ _ hr => hr⟩

/-- Witness for C7: unequipping (rebinding to null) on the shielded
inventory leaves the shield allocated at address 0. -/
theorem C7_witness :
    Inventory.equip [some shieldItem] shieldedInv none =
      ([some shieldItem],
        { inventory_grid_ := shieldedInv.inventory_grid_
          equipped_ := none
          weight_ := shieldedInv.weight_
          item_count_ := shieldedInv.item_count_ }) ∧
      (Inventory.equip [some shieldItem] shieldedInv none).1.read 0 =
        some shieldItem := by
  have h := C7_equip_rebinds [some shieldItem] shieldedInv none
  exact ⟨h.1, h.2 0 shieldItem rfl rfl⟩

/-- C8: `store` never validates the stored item's category. Storing a
`NONE`-category item into an empty in-bounds cell returns `true`, writes the
cell, adds the item's weight, and increments the count, yet the written cell
still reads as category `NONE` — so on an inventory satisfying the
invariant, the cached count ends up strictly exceeding (by one) the number
of non-`NONE` grid cells. -/
theorem C8_store_unvalidated (inv : Inventory) (row col : Nat) (pickup : Item)
    (hrow : row < inv.inventory_grid_.length)
    (hcol : col < (inv.inventory_grid_[row]?.getD []).length)
    (hempty : (getCell inv.inventory_grid_ row col).type_ = Category.NONE)
    (hpk : pickup.type_ = Category.NONE) (hinv : invariantHolds inv) :
    inv.store row col pickup =
      (.ok true,
        { inventory_grid_ := setCell inv.inventory_grid_ row col pickup
          equipped_ := inv.equipped_
          weight_ := inv.weight_ + pickup.weight_
          item_count_ := inv.item_count_ + 1 }) ∧
      (getCell (setCell inv.inventory_grid_ row col pickup) row col).type_ =
        Category.NONE ∧
      (inv.store row col pickup).2.item_count_ =
        gridCount (inv.store row col pickup).2.inventory_grid_ + 1 := by
  have hs := store_empty_eq inv row col pickup hrow hcol hempty
  refine ⟨hs, ?_, ?_⟩
  · rw [getCell_setCell_self inv.inventory_grid_ row col pickup hrow hcol]
    exact hpk
  · rw [hs]
    show inv.item_count_ + 1 =
      gridCount (setCell inv.inventory_grid_ row col pickup) + 1
    have hC := gridCount_setCell inv.inventory_grid_ row col pickup hrow hcol
    simp only [countContrib, if_pos hempty, if_pos hpk] at hC
    have hc := hinv.2
    omega

/-- Witness for C8: storing `bogusItem` (category `NONE`, weight 1) into the
empty 1×1 inventory; the invariant hypothesis is discharged by
`construct_invariant`. -/
theorem C8_witness :
    emptyCellInv.store 0 0 bogusItem =
      (.ok true,
        { inventory_grid_ := setCell emptyCellInv.inventory_grid_ 0 0 bogusItem
          equipped_ := emptyCellInv.equipped_
          weight_ := emptyCellInv.weight_ + bogusItem.weight_
          item_count_ := emptyCellInv.item_count_ + 1 }) ∧
      (getCell (setCell emptyCellInv.inventory_grid_ 0 0 bogusItem) 0 0).type_ =
        Category.NONE ∧
      (emptyCellInv.store 0 0 bogusItem).2.item_count_ =
        gridCount (emptyCellInv.store 0 0 bogusItem).2.inventory_grid_ + 1 :=
  C8_store_unvalidated emptyCellInv 0 0 bogusItem (by decide) (by decide)
    (by decide) rfl (construct_invariant [[Item.default]] none)

/-- C9: `discardEquipped` with no equipped item changes nothing — neither
the inventory nor the heap — and two successive calls always equal one. -/
theorem C9_discard_idempotent (h : Heap) (inv : Inventory) :
    (inv.equipped_ = none → Inventory.discardEquipped h inv = (h, inv)) ∧
      Inventory.discardEquipped (Inventory.discardEquipped h inv).1
          (Inventory.discardEquipped h inv).2 =
        Inventory.discardEquipped h inv := by
  constructor
  · intro he
    simp [Inventory.discardEquipped, he]
  · cases he : inv.equipped_ with
    | none => simp [Inventory.discardEquipped, he]
    | some a =>
      have h1 : Inventory.discardEquipped h inv =
          (h.free a, { inv with equipped_ := none }) := by
        simp [Inventory.discardEquipped, he]
      rw [h1]
      simp [Inventory.discardEquipped]

/-- Witness for C9: discarding on the empty inventory over the empty heap is
a no-op, twice as once. -/
theorem C9_witness :
    Inventory.discardEquipped [] movedFromInv = ([], movedFromInv) ∧
      Inventory.discardEquipped (Inventory.discardEquipped [] movedFromInv).1
          (Inventory.discardEquipped [] movedFromInv).2 =
        Inventory.discardEquipped [] movedFromInv := by
  have h := C9_discard_idempotent [] movedFromInv
  exact ⟨h.1 rfl, h.2⟩

/-- C10: moving a `Player` (constructor or assignment form) transfers its
name and inventory to the destination; the source is left with an empty name
and its inventory in the valid-empty moved-from state (empty grid, no
equipped item, weight 0, count 0). -/
theorem C10_player_move (h : Heap) (lhs p : Player) :
    p.moveCtor.1 = { name_ := p.name_, inventory_ := p.inventory_ } ∧
      p.moveCtor.2 = { name_ := "", inventory_ := movedFromInv } ∧
      (Player.moveAssign h lhs p).2.1 =
        { name_ := p.name_, inventory_ := p.inventory_ } ∧
      (Player.moveAssign h lhs p).2.2 =
        { name_ := "", inventory_ := movedFromInv } :=
  ⟨rfl, rfl, rfl, rfl⟩
